import Mathlib

/-!
Verification of the JustLearnBot adaptive assessment engine.

Shallow embedding of the adaptive-assessment core of `chatbot.py` (and the
relevant parts of `bot/user_tracker.py` and
`database/database_manager.py`), together with theorems settling the frozen
claims about its natural-language specification.

Modelling conventions:
* Python dicts keyed by topic become explicit fields of a per-topic state
  record; the session's per-topic maps are all initialised lazily in the
  source, which is equivalent to starting from the zero/false defaults used
  here.
* The per-topic difficulty state machine (`process_adaptive_answer`,
  chatbot.py 1797-2135) is embedded under the regime in which every request
  for a next question of a given difficulty succeeds (the question bank has
  a question of the requested difficulty).  The no-question fallback
  branches (chatbot.py 1911-1926 and 2106-2124) are therefore not part of
  the step function; the retrieval layer itself is embedded separately.
* Machine integers do not occur; Python ints are `Nat`.  The float
  comparisons `score < 0.5` (chatbot.py 1467-1468) and
  `correct < total * 0.8` (chatbot.py 2495) are embedded as the exact
  rational comparisons `2 * correct < total` and `5 * correct < 4 * total`,
  which agree with IEEE double evaluation for the small counts (at most 7
  answers per topic, at most 3 follow-up questions) that occur.
* `random.shuffle` / `random.choice` / `random.choices` /
  `random.sample` select elements of a candidate list; selection is
  embedded as indexing by an arbitrary `sel : Nat` modulo the list length
  (or, for `sample`, a prefix), so theorems quantifying over `sel` cover
  every possible random outcome, and count/membership facts are
  permutation-invariant.
* The md5 content hash of a question (`get_question_hash`,
  chatbot.py 1040-1049) is embedded as the hashed content itself (question
  text, correct answer, sorted choices); md5 collisions are abstracted
  away.
* Python `x in s` membership tests on sets/lists are embedded as
  `decide (x ∈ l)`.
-/

namespace JustLearn

/-- Question difficulty, the values `"Easy" | "Medium" | "Hard"` of the
source (after `DIFFICULTY_MAPPING` standardisation). -/
inductive Difficulty
  | easy
  | medium
  | hard
deriving DecidableEq, Repr

/-- Per-topic adaptive state: one record collecting the session's per-topic
dict entries of `process_adaptive_answer` (chatbot.py 1834-1862) plus the
difficulty of the current question and the per-topic slice of
`session["answers"]` (`record_adaptive_answer`, chatbot.py 1395-1410).
`needsMoreTraining` records membership of the topic in
`session["needs_more_training"]`. -/
structure TopicState where
  currentDifficulty : Difficulty
  isFirstQuestion : Bool
  firstWasMedium : Bool
  easyAttemptsAfterMedium : Nat
  hardFailuresCount : Nat
  cameFromHardFailure : Bool
  topicQuestionCount : Nat
  needsMoreTraining : Bool
  answers : List Bool
deriving DecidableEq, Repr

/-- A topic starts fresh at a Medium question with all counters at their
lazily-initialised defaults (chatbot.py 1848-1862, 2051). -/
def initTopicState : TopicState :=
  { currentDifficulty := .medium
    isFirstQuestion := true
    firstWasMedium := false
    easyAttemptsAfterMedium := 0
    hardFailuresCount := 0
    cameFromHardFailure := false
    topicQuestionCount := 0
    needsMoreTraining := false
    answers := [] }

/-- The `next_action` dicts produced by `determine_next_adaptive_action`
(chatbot.py 1725-1795): a next question at a difficulty (with the optional
`reset_hard_failure_flag`), a topic completion (successful on Hard-correct,
weak on Easy-incorrect), or the first-Hard-failure `warning` (which carries
difficulty Medium and `set_hard_failure_flag`). -/
inductive NextAction
  | nextQuestion (d : Difficulty) (resetHardFailureFlag : Bool)
  | topicComplete (success : Bool)
  | warning
deriving DecidableEq, Repr

/-- Embeds `determine_next_adaptive_action` (chatbot.py 1725-1795).  The
`hard_failures` argument of the source is unused by the source's branches
and is omitted. -/
def determineNextAdaptiveAction (isCorrect : Bool) (d : Difficulty)
    (cameFromHardFailure : Bool) : NextAction :=
  if isCorrect then
    match d with
    | .medium => .nextQuestion .hard cameFromHardFailure
    | .easy => .nextQuestion .medium false
    | .hard => .topicComplete true
  else
    match d with
    | .medium => .nextQuestion .easy false
    | .easy => .topicComplete false
    | .hard => .warning

/-- How a topic ends, tagged by the source branch that ended it. -/
inductive EndKind
  | markWeakAndContinue
  | needsTrainingComplete
  | completedHard
  | completedWeakEasy
  | topicMaxReached
deriving DecidableEq, Repr

/-- Result of processing one answer for the current topic: either another
question is served for this topic (at `s.currentDifficulty` of the new
state), or the topic ends. -/
inductive StepRes
  | next (s : TopicState)
  | ended (k : EndKind) (s : TopicState)
deriving DecidableEq, Repr

/-- The special first-question sequence of `process_adaptive_answer`
(chatbot.py 1866-1945).  `Sum.inl` is an early return of the source
(the first-Easy-failure retry, which serves another Easy question without
touching `topic_question_count`, and the second-Easy-failure weak mark);
`Sum.inr` falls through to the regular adaptive logic. -/
def firstQuestionBlock (isCorrect : Bool) (d : Difficulty)
    (s : TopicState) : StepRes ⊕ TopicState :=
  if s.isFirstQuestion then
    match d with
    | .medium =>
        let s := { s with firstWasMedium := true }
        if isCorrect then .inr { s with isFirstQuestion := false } else .inr s
    | .easy =>
        if s.firstWasMedium then
          let attempts := s.easyAttemptsAfterMedium + 1
          let s := { s with easyAttemptsAfterMedium := attempts }
          if isCorrect then
            .inr { s with isFirstQuestion := false }
          else if attempts < 2 then
            .inl (.next { s with currentDifficulty := .easy })
          else
            .inl (.ended .markWeakAndContinue { s with isFirstQuestion := false })
        else .inr s
    | .hard => .inr s
  else .inr s

/-- One answer-processing step of `process_adaptive_answer`
(chatbot.py 1797-2126) for the current topic, under the
question-availability regime described in the module docstring.  The
ordering of the blocks follows the source: record the answer, the
first-question sequence, the Hard-failure counter with its immediate
two-failures termination, the `topic_question_count` increment,
`determine_next_adaptive_action`, the critical-Hard-retry test (against the
flag value *before* the flag updates), the flag updates, topic completion,
and finally the 5-question ceiling which the critical Hard retry may
bypass. -/
def stepTopic (isCorrect : Bool) (s0 : TopicState) : StepRes :=
  let d := s0.currentDifficulty
  let s1 := { s0 with answers := s0.answers ++ [isCorrect] }
  match firstQuestionBlock isCorrect d s1 with
  | .inl r => r
  | .inr s2 =>
    let hardFail := d = .hard ∧ isCorrect = false
    let s3 := if hardFail then
        { s2 with hardFailuresCount := s2.hardFailuresCount + 1 } else s2
    if hardFail ∧ 2 ≤ s3.hardFailuresCount then
      .ended .needsTrainingComplete { s3 with needsMoreTraining := true }
    else
      let s4 := { s3 with topicQuestionCount := s3.topicQuestionCount + 1 }
      let act := determineNextAdaptiveAction isCorrect d s4.cameFromHardFailure
      let isCriticalHardRetry :=
        match act with
        | .nextQuestion .hard _ => s4.cameFromHardFailure
        | _ => false
      let s5 :=
        match act with
        | .nextQuestion _ reset =>
            if reset then { s4 with cameFromHardFailure := false } else s4
        | .warning => { s4 with cameFromHardFailure := true }
        | .topicComplete _ => s4
      match act with
      | .topicComplete success =>
          .ended (if success then .completedHard else .completedWeakEasy) s5
      | _ =>
          let nextD :=
            match act with
            | .nextQuestion d' _ => d'
            | _ => .medium
          if 5 ≤ s5.topicQuestionCount ∧ isCriticalHardRetry = false then
            .ended .topicMaxReached s5
          else
            .next { s5 with currentDifficulty := nextD }

/-- Result of running a whole per-topic answer sequence: either the topic is
still in progress after all answers, or it ended with the remaining
(unconsumed) answers. -/
inductive RunRes
  | inProgress (s : TopicState)
  | ended (k : EndKind) (s : TopicState) (rest : List Bool)
deriving DecidableEq, Repr

/-- Replay a list of answers for one topic through `stepTopic`. -/
def runTopic (s : TopicState) : List Bool → RunRes
  | [] => .inProgress s
  | a :: as =>
    match stepTopic a s with
    | .next s' => runTopic s' as
    | .ended k s' => .ended k s' as

/-- Bounded checker: `checkEnds P s n = true` certifies that along every
answer sequence from `s`, the topic ends within `n` answers and the ending
satisfies `P`. -/
def checkEnds (P : EndKind → TopicState → Bool) : TopicState → Nat → Bool
  | _, 0 => false
  | s, n + 1 =>
    (match stepTopic true s with
     | .next s' => checkEnds P s' n
     | .ended k s' => P k s') &&
    (match stepTopic false s with
     | .next s' => checkEnds P s' n
     | .ended k s' => P k s')

/-- Helper: does a step end the topic with the given kind? -/
def stepEndsWith : StepRes → EndKind → Bool
  | .ended k _, k' => k == k'
  | .next _, _ => false

/-- Deduplicated topic list; stands in for the keys of the `topic_results`
dict of `update_adaptive_test_results` (chatbot.py 1448-1456).  Only
membership matters to the claims; the source's dict insertion order is not
tracked. -/
def distinctTopics : List String → List String
  | [] => []
  | t :: ts =>
    let r := distinctTopics ts
    if t ∈ r then r else t :: r

/-- The per-topic slice of `session["answers"]`: the `correct` flags of the
answers recorded for topic `t`, in order (`record_adaptive_answer`,
chatbot.py 1402-1408; consumed at chatbot.py 1449-1456). -/
def topicAnswers (t : String) (log : List (String × Bool)) : List Bool :=
  (log.filter (fun p => p.1 == t)).map (fun p => p.2)

/-- Embeds `topic_results[topic]["correct"]` of chatbot.py 1449-1456. -/
def correctCount (t : String) (log : List (String × Bool)) : Nat :=
  ((topicAnswers t log).filter id).length

/-- Embeds `topic_results[topic]["total"]` of chatbot.py 1449-1456. -/
def totalCount (t : String) (log : List (String × Bool)) : Nat :=
  (topicAnswers t log).length

/-- The ratio test `score < 0.5` of chatbot.py 1467-1468, exactly:
`correct / total < 0.5 ↔ 2 * correct < total` (IEEE double division of the
small per-topic counts rounds across `0.5` only at equality, so the
rational form is exact). -/
def scoreBelowHalf (t : String) (log : List (String × Bool)) : Bool :=
  decide (2 * correctCount t log < totalCount t log)

/-- The classification lists produced at session completion. -/
structure AdaptiveResults where
  weakTopics : List String
  passedTopics : List String
  needsMoreTraining : List String
deriving Repr

/-- The classification part of `update_adaptive_test_results`
(chatbot.py 1447-1476): every answered topic not already in
`needs_more_training` is classified Weak (`score < 0.5`) or Passed, and
topics in `needs_more_training` are skipped.  (The source's `total > 0`
guard always holds for keys of `topic_results`.) -/
def updateAdaptiveTestResults (log : List (String × Bool))
    (needs : List String) : AdaptiveResults :=
  let ts := distinctTopics (log.map (fun p => p.1))
  { weakTopics := ts.filter (fun t => !(decide (t ∈ needs)) && scoreBelowHalf t log)
    passedTopics := ts.filter (fun t => !(decide (t ∈ needs)) && !(scoreBelowHalf t log))
    needsMoreTraining := needs }

/-- Property checked over all reachable topic endings for C1: a topic that
ends through the Hard-correct `topic_complete` branch has recorded at least
one answer and a correct ratio of at least one half. -/
def endsHardPassed (k : EndKind) (s : TopicState) : Bool :=
  !(k == .completedHard) ||
    (decide (1 ≤ s.answers.length) &&
     decide (s.answers.length ≤ 2 * (s.answers.filter id).length))

/-- Property checked over all reachable topic endings for C2: a topic that
ends through the two-Hard-failures branch has been put into
`needs_more_training`. -/
def endsNeedsTrainingFlagged (k : EndKind) (s : TopicState) : Bool :=
  !(k == .needsTrainingComplete) || s.needsMoreTraining

/-- Property checked over all reachable topic endings for C3: every topic
ends after at most 7 recorded answers, with the enforced counter at most
6. -/
def endsWithinBounds (_ : EndKind) (s : TopicState) : Bool :=
  decide (s.answers.length ≤ 7) && decide (s.topicQuestionCount ≤ 6)

/-- Property checked over all reachable topic endings for C4: the
`mark_weak_and_continue` ending arises exactly from the answer sequence
Medium-wrong, Easy-wrong, Easy-wrong. -/
def endsWeakOnlyTripleFail (k : EndKind) (s : TopicState) : Bool :=
  !(k == .markWeakAndContinue) || (s.answers == [false, false, false])

/-- A multiple-choice question as stored in the question bank: the dict
fields `topic`, `difficulty`, `question`, `correct_answer`, `choices`,
`explanation`. -/
structure Question where
  topic : String
  difficulty : String
  question : String
  correctAnswer : String
  choices : List (String × String)
  explanation : String
deriving DecidableEq, Repr

/-- Lexicographic comparison of character lists (the order Python's
`sorted` uses on the ASCII choice letters). -/
def charListLt : List Char → List Char → Bool
  | [], [] => false
  | [], _ :: _ => true
  | _ :: _, [] => false
  | a :: as, b :: bs =>
    if a < b then true else if b < a then false else charListLt as bs

/-- String comparison via `charListLt`. -/
def strLt (a b : String) : Bool :=
  charListLt a.data b.data

/-- Insert a choice into a key-sorted choice list (helper for the
`sorted(...)` call of `get_question_hash`). -/
def insertChoice (c : String × String) : List (String × String) → List (String × String)
  | [] => [c]
  | d :: ds => if strLt d.1 c.1 then d :: insertChoice c ds else c :: d :: ds

/-- Embeds `sorted(question.get("choices", {}).items())` of chatbot.py 1045. -/
def sortChoices : List (String × String) → List (String × String)
  | [] => []
  | c :: cs => insertChoice c (sortChoices cs)

/-- The content identity hashed by `get_question_hash`. -/
abbrev QHash := String × String × List (String × String)

/-- Embeds `get_question_hash` (chatbot.py 1040-1049): the md5 of
`question|correct_answer|sorted(choices)`, embedded as that content
itself. -/
def getQuestionHash (q : Question) : QHash :=
  (q.question, q.correctAnswer, sortChoices q.choices)

/-- Python string slicing `s[:n]`, embedded character-wise.  (The library
`String.take` is extensionally the same but does not reduce well inside
the kernel.) -/
def strTake (s : String) (n : Nat) : String :=
  String.mk (s.data.take n)

/-- Python `s.lower()`, embedded character-wise; the bank's topic and
difficulty strings are ASCII, where `Char.toLower` agrees with Python. -/
def strLower (s : String) : String :=
  String.mk (s.data.map Char.toLower)

/-- Python `s.upper()`, embedded character-wise; answer letters are ASCII,
where `Char.toUpper` agrees with Python. -/
def strUpper (s : String) : String :=
  String.mk (s.data.map Char.toUpper)

/-- The legacy per-topic/difficulty question id: the first 50 characters of
the question text (chatbot.py 1986, 2189). -/
def questionId (q : Question) : String :=
  strTake q.question 50

/-- The dedup key of the advanced reevaluation builder: the first 100
characters of the question text (chatbot.py 1669). -/
def questionKey (q : Question) : String :=
  strTake q.question 100

/-- Embeds `TOPIC_MAPPING` (chatbot.py 506-517). -/
def TOPIC_MAPPING : List (String × List String) :=
  [ ("Algorithm Analysis and Big-O Notation",
      ["Big-O", "Algorithm Analysis", "Algorithmic Analysis", "Big O", "Big-O Notation"])
  , ("Array-Based Lists", ["Arrays", "Array", "Array-Based", "Array Based Lists"])
  , ("Linked Lists", ["Linked List", "LinkedList", "LinkedLists"])
  , ("Stacks", ["Stack"])
  , ("Queues", ["Queue"])
  , ("Recursion", ["Recursive"])
  , ("Searching and Hashing", ["Hashing", "Hash", "Search", "Searching"])
  , ("Binary Trees", ["Tree", "Trees", "Binary Tree"])
  , ("Graphs", ["Graph"])
  , ("Sorting Algorithms", ["Sorting", "Sort Algorithms", "Sort"]) ]

/-- Embeds `DIFFICULTY_MAPPING.get(difficulty.lower(), difficulty)`
(chatbot.py 519-525, 1121, 2166). -/
def stdDifficulty (difficulty : String) : String :=
  let l := strLower difficulty
  if l == "easy" then ("Easy")
  else if l == "medium" then ("Medium")
  else if l == "med" then ("Medium")
  else if l == "hard" then ("Hard")
  else difficulty

/-- Python's substring test `sub in s`. -/
def strContains (s sub : String) : Bool :=
  (List.range (s.data.length + 1)).any
    (fun i => decide (sub.data <+: s.data.drop i))

/-- The exact topic+difficulty candidate filter used throughout retrieval
(e.g. chatbot.py 1126-1129, 2169-2172). -/
def exactMatches (topic std : String) (all : List Question) : List Question :=
  all.filter (fun q => q.topic == topic && q.difficulty == std)

/-- The `TOPIC_MAPPING` expansion loop (chatbot.py 1134-1142, 2175-2183):
for every mapping entry whose main topic or variations contain the
requested topic, collect exact matches for the main topic and for every
variation. -/
def variationMatches (topic std : String) (all : List Question) : List Question :=
  (TOPIC_MAPPING.filter (fun mv => topic == mv.1 || mv.2.contains topic)).flatMap
    (fun mv => (mv.1 :: mv.2).flatMap (fun v => exactMatches v std all))

/-- The case-insensitive flexible-match fallback (chatbot.py 1147-1152). -/
def flexibleMatches (topic std : String) (all : List Question) : List Question :=
  all.filter (fun q =>
    strContains (strLower q.topic) (strLower topic) &&
    strContains (strLower q.difficulty) (strLower std))

/-- The any-difficulty last-resort filter (chatbot.py 1157-1162). -/
def anyDifficultyMatches (topic : String) (all : List Question) : List Question :=
  all.filter (fun q => strContains (strLower q.topic) (strLower topic))

/-- The closest-difficulty reassignment of chatbot.py 1166-1182. -/
def closestDifficulty (std : String) (cands : List Question) : String :=
  if cands.any (fun q => q.difficulty == std) then std
  else if std == "Medium" then
    (if cands.any (fun q => q.difficulty == "Easy") then ("Easy") else ("Hard"))
  else if std == "Easy" then ("Medium")
  else if std == "Hard" then ("Medium")
  else std

/-- Random selection from a candidate list, embedded as indexing by an
arbitrary `sel` modulo the length (`random.shuffle` + `random.choice` /
weighted `random.choices`; every candidate has positive weight, so every
index is a possible outcome). -/
def pick (l : List Question) (sel : Nat) : Option Question :=
  l.get? (sel % l.length)

/-- The first three candidate stages of
`get_random_question_by_topic_and_difficulty` (chatbot.py 1125-1154):
exact match, else `TOPIC_MAPPING` variations, else case-insensitive flexible
match. -/
def candidateStage3 (topic std : String) (all : List Question) : List Question :=
  let m1 := exactMatches topic std all
  let m2 := if m1.isEmpty then variationMatches topic std all else m1
  if m2.isEmpty then flexibleMatches topic std all else m2

/-- The full candidate cascade of
`get_random_question_by_topic_and_difficulty` (chatbot.py 1125-1195),
adding the any-difficulty last resort with closest-difficulty filtering
(chatbot.py 1156-1192) after `candidateStage3`. -/
def candidateFinal (topic std : String) (all : List Question) : List Question :=
  let m3 := candidateStage3 topic std all
  if m3.isEmpty then
    let anyM := anyDifficultyMatches topic all
    if anyM.isEmpty then anyM
    else
      let cm := anyM.filter (fun q => q.difficulty == closestDifficulty std anyM)
      if cm.isEmpty then anyM else cm
  else m3

/-- Embeds `get_random_question_by_topic_and_difficulty` (chatbot.py 1118-1222):
random selection from the candidate cascade; `None` exactly when even the
loosest filter is empty. -/
def getRandomQuestionByTopicAndDifficulty (topic difficulty : String)
    (all : List Question) (sel : Nat) : Option Question :=
  pick (candidateFinal topic (stdDifficulty difficulty) all) sel

/-- The matching-candidate list of
`get_unused_question_by_topic_and_difficulty` (chatbot.py 2164-2183):
exact topic+difficulty matches, else the `TOPIC_MAPPING` expansion. -/
def matchingForRetrieval (topic difficulty : String) (all : List Question) :
    List Question :=
  let std := stdDifficulty difficulty
  let m1 := exactMatches topic std all
  if m1.isEmpty then variationMatches topic std all else m1

/-- Outcome of one dedup-tracked retrieval: the selected question (if any),
the session's `used_question_hashes` after the call, and whether the
selection came from the all-candidates-used duplicate fallback
(chatbot.py 2260-2274). -/
structure RetrievalOutcome where
  question : Option Question
  usedHashes : List QHash
  allUsedFallback : Bool
deriving DecidableEq, Repr

/-- Embeds `unused_questions` of chatbot.py 2185-2194: matching candidates
filtered by the session's used hashes and by the per-topic/difficulty
asked ids. -/
def unusedCandidates (used : List QHash) (asked : List String)
    (topic difficulty : String) (all : List Question) : List Question :=
  (matchingForRetrieval topic difficulty all).filter (fun q =>
    !(decide (getQuestionHash q ∈ used)) && !(decide (questionId q ∈ asked)))

/-- The cross-difficulty pool of chatbot.py 2227-2234: exact-topic
questions of the two difficulties other than the requested one. -/
def altDifficultyCandidates (topic difficulty : String)
    (all : List Question) : List Question :=
  (["Easy", "Medium", "Hard"].filter (fun d => d != difficulty)).flatMap
    (fun alt => all.filter (fun q => q.topic == topic && q.difficulty == alt))

/-- Embeds `truly_unused` of chatbot.py 2237-2241: the cross-difficulty pool
filtered by the session's used hashes. -/
def trulyUnusedCandidates (used : List QHash) (topic difficulty : String)
    (all : List Question) : List Question :=
  (altDifficultyCandidates topic difficulty all).filter (fun q =>
    !(decide (getQuestionHash q ∈ used)))

/-- Embeds `get_unused_question_by_topic_and_difficulty` (chatbot.py 2137-2277)
for an active session: filter the matching candidates by hash and by the
per-topic/difficulty asked ids; if none survive, try the other two
difficulties of the exact topic filtered by hash; if none survive, accept a
duplicate from the matching candidates (the documented fallback).  In all
three of those branches the selected hash is appended before returning.
When there are no matching candidates at all, the source delegates to
`get_random_question_by_topic_and_difficulty` (chatbot.py 2277) and records
nothing. -/
def getUnusedQuestionByTopicAndDifficulty (used : List QHash)
    (asked : List String) (topic difficulty : String) (all : List Question)
    (sel : Nat) : RetrievalOutcome :=
  let matching := matchingForRetrieval topic difficulty all
  let unused := unusedCandidates used asked topic difficulty all
  if unused.isEmpty then
    if matching.isEmpty then
      ⟨getRandomQuestionByTopicAndDifficulty topic difficulty all sel, used, false⟩
    else
      let trulyUnused := trulyUnusedCandidates used topic difficulty all
      if trulyUnused.isEmpty then
        match pick matching sel with
        | some q => ⟨some q, used ++ [getQuestionHash q], true⟩
        | none => ⟨none, used, true⟩
      else
        match pick trulyUnused sel with
        | some q => ⟨some q, used ++ [getQuestionHash q], false⟩
        | none => ⟨none, used, false⟩
  else
    match pick unused sel with
    | some q => ⟨some q, used ++ [getQuestionHash q], false⟩
    | none => ⟨none, used, false⟩

/-- Result of a follow-up (reevaluation) test builder. -/
inductive BuildResult
  | noQuestions
  | notEnough (found : Nat)
  | built (questions : List Question)
deriving DecidableEq, Repr

/-- Embeds `start_reevaluation_test` (chatbot.py 1554-1620): one retrieval per
difficulty, appended in the fixed slot order Easy, Medium, Hard (a `None`
retrieval is skipped); fails only when all three retrievals return
nothing. -/
def startReevaluationTest (topic : String) (all : List Question)
    (selE selM selH : Nat) : BuildResult :=
  let easyQ := getRandomQuestionByTopicAndDifficulty topic ("Easy") all selE
  let medQ := getRandomQuestionByTopicAndDifficulty topic ("Medium") all selM
  let hardQ := getRandomQuestionByTopicAndDifficulty topic ("Hard") all selH
  let questions := easyQ.toList ++ medQ.toList ++ hardQ.toList
  if questions.isEmpty then .noQuestions else .built questions

/-- The duplicate-removal loop of `start_advanced_reevaluation_test`
(chatbot.py 1666-1674): keep a question only if the first 100 characters of
its text have not been seen. -/
def dedupByKeyAux (seen : List String) : List Question → List Question
  | [] => []
  | q :: qs =>
    if decide (questionKey q ∈ seen) then dedupByKeyAux seen qs
    else q :: dedupByKeyAux (seen ++ [questionKey q]) qs

/-- Embeds `unique_questions` of chatbot.py 1666-1674. -/
def dedupByKey (qs : List Question) : List Question :=
  dedupByKeyAux [] qs

/-- Embeds `hard_questions` of chatbot.py 1636-1663: exact Hard matches for the
topic, else the `TOPIC_MAPPING` expansion at Hard. -/
def advancedHardPool (topic : String) (all : List Question) : List Question :=
  let hard1 := exactMatches topic ("Hard") all
  if hard1.isEmpty then variationMatches topic ("Hard") all else hard1

/-- Embeds `start_advanced_reevaluation_test` (chatbot.py 1622-1723): collect Hard
questions for the topic (exact matches, else `TOPIC_MAPPING` expansion),
deduplicate by 100-character text prefix, fail when fewer than 2 remain,
and keep (a sample of) at most 3.  `random.sample`/`random.shuffle` are
embedded as taking the first 3 — the count, difficulty and mutual-dedup
facts proved about the result are permutation-invariant. -/
def startAdvancedReevaluationTest (topic : String) (all : List Question) :
    BuildResult :=
  let unique := dedupByKey (advancedHardPool topic all)
  if unique.length < 2 then .notEnough unique.length
  else .built (if unique.length > 3 then unique.take 3 else unique)

/-- Embeds `DatabaseManager.add_weak_topic` / `add_needs_training_topic`
(database_manager.py 425-433, 447-455): `INSERT OR IGNORE`, i.e. append if
absent.  Also matches the in-memory pool update of chatbot.py 1530-1534. -/
def addWeakTopic (pool : List String) (t : String) : List String :=
  if t ∈ pool then pool else pool ++ [t]

/-- The completion block of `process_reevaluation_answer`
(chatbot.py 2347-2373): the test's `weak_topics` list is the session's
topics when `correct_answers < total_questions * 2 // 3`, else empty, and
every topic of that list is (re-)inserted into the weak pool.  Nothing is
ever removed from any pool.  Returns (`weak_topics`, updated weak pool). -/
def completeStandardReevaluation (topics : List String)
    (correctAnswers totalQuestions : Nat) (weakPool : List String) :
    List String × List String :=
  let weakTopics :=
    if correctAnswers < totalQuestions * 2 / 3 then topics else []
  (weakTopics, weakTopics.foldl addWeakTopic weakPool)

/-- The completion block of `process_reevaluation_answer_advanced`
(chatbot.py 2485-2527): `weak_topics` is the session's topics when
`correct_answers < total_questions * 0.8` (embedded exactly as
`5 * correct < 4 * total`), and those topics are inserted into the *weak*
pool (`add_weak_topic`, chatbot.py 2513); the needs-training pool is never
touched.  Returns (`weak_topics`, updated weak pool, needs-training
pool). -/
def completeAdvancedReevaluation (topics : List String)
    (correctAnswers totalQuestions : Nat)
    (weakPool needsPool : List String) :
    List String × List String × List String :=
  let weakTopics :=
    if 5 * correctAnswers < 4 * totalQuestions then topics else []
  (weakTopics, weakTopics.foldl addWeakTopic weakPool, needsPool)

/-- The answer-correctness test of `process_adaptive_answer`
(chatbot.py 1827): a plain uppercase string comparison, with no validation
of the answer against the question's choice letters. -/
def checkAnswerAdaptive (answer correctAnswer : String) : Bool :=
  strUpper answer == strUpper correctAnswer

/-- The fields of the result dict of `UserTracker.process_answer`
(user_tracker.py 128-198) relevant to the claims. -/
structure TrackerAnswerOutcome where
  correct : Bool
  correctAnswer : String
  explanation : String
  testCompleted : Bool
deriving DecidableEq, Repr

/-- Result of `UserTracker.process_answer`: a typed error dict or an
ordinary answer-result dict. -/
inductive TrackerResult
  | error
  | ok (r : TrackerAnswerOutcome)
deriving DecidableEq, Repr

/-- The answer-scoring core of `UserTracker.process_answer`
(user_tracker.py 128-198): an out-of-range index is the only error; any
answer string is otherwise scored by `answer.upper() ==
question["correct_answer"]` — there is no choice-letter validation and no
`InvalidAnswerFormat` result. -/
def trackerProcessAnswer (questions : List Question) (currentIndex : Nat)
    (answer : String) : TrackerResult :=
  match questions.get? currentIndex with
  | none => .error
  | some q =>
      .ok { correct := strUpper answer == q.correctAnswer
            correctAnswer := q.correctAnswer
            explanation := q.explanation
            testCompleted := decide (questions.length ≤ currentIndex + 1) }

/-- Concrete bank entry used in counterexamples and witnesses. -/
def sampleMediumQuestion : Question :=
  { topic := "Stacks", difficulty := "Medium", question := "Q1"
    correctAnswer := "A", choices := [("A", "x"), ("B", "y")]
    explanation := "e" }

/-- Concrete bank entry used in witnesses. -/
def sampleEasyQuestion : Question :=
  { topic := "Stacks", difficulty := "Easy", question := "QE"
    correctAnswer := "B", choices := [("A", "x"), ("B", "y")]
    explanation := "e" }

/-- Concrete bank entry used in witnesses. -/
def sampleHardQuestion : Question :=
  { topic := "Stacks", difficulty := "Hard", question := "QH"
    correctAnswer := "C", choices := [("C", "x"), ("D", "y")]
    explanation := "e" }

/-- Concrete Hard bank entries on one topic, used in counterexamples and
witnesses for the advanced builder. -/
def sampleGraphHard (i : Nat) : Question :=
  { topic := "Graphs", difficulty := "Hard", question := "GH" ++ toString i
    correctAnswer := "A", choices := [("A", "x"), ("B", "y")]
    explanation := "e" }

/-- Concrete four-choice question used in the invalid-answer
counterexample. -/
def sampleChoiceQuestion : Question :=
  { topic := "Stacks", difficulty := "Easy", question := "What is a stack?"
    correctAnswer := "A"
    choices := [("A", "LIFO"), ("B", "FIFO"), ("C", "Tree"), ("D", "Graph")]
    explanation := "LIFO structure" }

end JustLearn

namespace JustLearn

theorem checkEnds_sound (P : EndKind → TopicState → Bool) :
    ∀ (n : Nat) (s : TopicState), checkEnds P s n = true →
      ∀ (as : List Bool) (k : EndKind) (s' : TopicState),
        runTopic s as = .ended k s' [] → P k s' = true := by
  intro n
  induction n with
  | zero => intro s h; simp [checkEnds] at h
  | succ n ih =>
    intro s h as k s' hrun
    rw [checkEnds, Bool.and_eq_true] at h
    cases as with
    | nil => simp [runTopic] at hrun
    | cons a as =>
      rw [runTopic] at hrun
      cases a with
      | true =>
        cases hstep : stepTopic true s with
        | next s2 =>
          rw [hstep] at hrun
          exact ih s2 (by rw [hstep] at h; exact h.1) as k s' hrun
        | ended k2 s2 =>
          rw [hstep] at hrun
          cases hrun
          rw [hstep] at h
          exact h.1
      | false =>
        cases hstep : stepTopic false s with
        | next s2 =>
          rw [hstep] at hrun
          exact ih s2 (by rw [hstep] at h; exact h.2) as k s' hrun
        | ended k2 s2 =>
          rw [hstep] at hrun
          cases hrun
          rw [hstep] at h
          exact h.2

theorem mem_distinctTopics {l : List String} :
    ∀ {t : String}, t ∈ distinctTopics l ↔ t ∈ l := by
  induction l with
  | nil => intro t; simp [distinctTopics]
  | cons a l ih =>
    intro t
    simp only [distinctTopics]
    by_cases h : a ∈ distinctTopics l
    · rw [if_pos h, List.mem_cons, ih]
      constructor
      · intro hm; exact .inr hm
      · rintro (rfl | hm)
        · exact ih.mp h
        · exact hm
    · rw [if_neg h, List.mem_cons, List.mem_cons, ih]

theorem mem_map_fst_of_topicAnswers_ne_nil {t : String}
    {log : List (String × Bool)} (h : topicAnswers t log ≠ []) :
    t ∈ log.map (fun p => p.1) := by
  have hf : log.filter (fun p => p.1 == t) ≠ [] := by
    intro hf
    apply h
    unfold topicAnswers
    rw [hf]
    rfl
  rcases List.exists_mem_of_ne_nil _ hf with ⟨p, hp⟩
  have hmem := List.mem_filter.mp hp
  have ht : p.1 = t := by simpa using hmem.2
  exact ht ▸ List.mem_map_of_mem (fun p => p.1) hmem.1

theorem endsHardPassed_check : checkEnds endsHardPassed initTopicState 8 = true := by
  decide

/-- C1: in an adaptive test session, whenever the learner answers a Hard
question correctly the topic completes immediately through the successful
`topic_complete` branch (`stepEndsWith … = true` for every state whose
current question is Hard), and a topic whose recorded answer sequence ended
that way is classified into `passed_topics` — not `weak_topics` and not
`needs_more_training` — at session completion. -/
theorem C1_hard_correct_yields_passed
    (as : List Bool) (s' : TopicState) (t : String)
    (log : List (String × Bool)) (needs : List String)
    (hrun : runTopic initTopicState as = .ended .completedHard s' [])
    (hlog : topicAnswers t log = s'.answers)
    (hneeds : t ∉ needs) :
    (∀ s : TopicState, s.currentDifficulty = .hard →
        stepEndsWith (stepTopic true s) .completedHard = true) ∧
    t ∈ (updateAdaptiveTestResults log needs).passedTopics ∧
    t ∉ (updateAdaptiveTestResults log needs).weakTopics ∧
    t ∉ (updateAdaptiveTestResults log needs).needsMoreTraining := by
  have hP := checkEnds_sound endsHardPassed 8 initTopicState endsHardPassed_check
    as .completedHard s' hrun
  have h1 : 1 ≤ s'.answers.length ∧
      s'.answers.length ≤ 2 * (s'.answers.filter id).length := by
    simpa [endsHardPassed] using hP
  have htot : totalCount t log = s'.answers.length := by rw [totalCount, hlog]
  have hcor : correctCount t log = (s'.answers.filter id).length := by
    rw [correctCount, hlog]
  have hw : scoreBelowHalf t log = false := by
    simp only [scoreBelowHalf, htot, hcor, decide_eq_false_iff_not]
    omega
  have hne : topicAnswers t log ≠ [] := by
    rw [hlog]
    intro hnil
    rw [hnil] at h1
    simp at h1
  have hts : t ∈ distinctTopics (log.map (fun p => p.1)) :=
    mem_distinctTopics.mpr (mem_map_fst_of_topicAnswers_ne_nil hne)
  refine ⟨?_, ?_, ?_, hneeds⟩
  · intro s hs
    cases s with
    | mk d fq fwm ea hf cf qc nt ans =>
      cases hs
      cases fq <;>
        simp [stepTopic, firstQuestionBlock, determineNextAdaptiveAction,
          stepEndsWith]
  · exact List.mem_filter.mpr ⟨hts, by simp [hw, hneeds]⟩
  · intro hmem
    have hpred := (List.mem_filter.mp hmem).2
    simp [hw] at hpred

/-- Witness for C1 at the concrete run Medium-correct, Hard-correct. -/
theorem C1_witness :
    runTopic initTopicState [true, true] =
      .ended .completedHard
        ⟨.hard, false, true, 0, 0, false, 2, false, [true, true]⟩ [] ∧
    "Stacks" ∈ (updateAdaptiveTestResults
        [("Stacks", true), ("Stacks", true)] []).passedTopics :=
  ⟨by decide,
    (C1_hard_correct_yields_passed [true, true]
      ⟨.hard, false, true, 0, 0, false, 2, false, [true, true]⟩ "Stacks"
      [("Stacks", true), ("Stacks", true)] []
      (by decide) (by decide) (by simp)).2.1⟩

theorem endsNeedsTrainingFlagged_check :
    checkEnds endsNeedsTrainingFlagged initTopicState 8 = true := by
  decide

/-- C2: a second incorrect Hard answer on a topic ends the topic
immediately through the needs-training branch (`stepEndsWith … = true` for
every state at a Hard question with a Hard failure already recorded), the
topic is put into `needs_more_training`, and a topic in
`needs_more_training` is skipped by the ratio classifier at session
completion — it appears in the needs-training list and in neither
`weak_topics` nor `passed_topics`. -/
theorem C2_second_hard_failure_needs_training
    (as : List Bool) (s' : TopicState) (t : String)
    (log : List (String × Bool)) (needs : List String)
    (hrun : runTopic initTopicState as = .ended .needsTrainingComplete s' [])
    (hmem : t ∈ needs) :
    (∀ s : TopicState, s.currentDifficulty = .hard → 1 ≤ s.hardFailuresCount →
        stepEndsWith (stepTopic false s) .needsTrainingComplete = true) ∧
    s'.needsMoreTraining = true ∧
    t ∈ (updateAdaptiveTestResults log needs).needsMoreTraining ∧
    t ∉ (updateAdaptiveTestResults log needs).weakTopics ∧
    t ∉ (updateAdaptiveTestResults log needs).passedTopics := by
  have hP := checkEnds_sound endsNeedsTrainingFlagged 8 initTopicState
    endsNeedsTrainingFlagged_check as .needsTrainingComplete s' hrun
  have hflag : s'.needsMoreTraining = true := by
    simpa [endsNeedsTrainingFlagged] using hP
  refine ⟨?_, hflag, hmem, ?_, ?_⟩
  · intro s hs h1
    cases s with
    | mk d fq fwm ea hf cf qc nt ans =>
      cases hs
      have h2 : 2 ≤ hf + 1 := Nat.succ_le_succ h1
      cases fq <;>
        simp [stepTopic, firstQuestionBlock, stepEndsWith, h2]
  · intro hmem2
    have hpred := (List.mem_filter.mp hmem2).2
    simp [hmem] at hpred
  · intro hmem2
    have hpred := (List.mem_filter.mp hmem2).2
    simp [hmem] at hpred

/-- Witness for C2 at the concrete run Medium-correct, Hard-wrong,
Medium-correct, Hard-wrong. -/
theorem C2_witness :
    runTopic initTopicState [true, false, true, false] =
      .ended .needsTrainingComplete
        ⟨.hard, false, true, 0, 2, false, 3, true,
          [true, false, true, false]⟩ [] ∧
    "Recursion" ∈ (updateAdaptiveTestResults [] ["Recursion"]).needsMoreTraining ∧
    "Recursion" ∉ (updateAdaptiveTestResults [] ["Recursion"]).passedTopics :=
  ⟨by decide,
    (C2_second_hard_failure_needs_training [true, false, true, false]
      ⟨.hard, false, true, 0, 2, false, 3, true, [true, false, true, false]⟩
      "Recursion" [] ["Recursion"] (by decide) (by simp)).2.2.1,
    (C2_second_hard_failure_needs_training [true, false, true, false]
      ⟨.hard, false, true, 0, 2, false, 3, true, [true, false, true, false]⟩
      "Recursion" [] ["Recursion"] (by decide) (by simp)).2.2.2.2⟩

theorem endsWithinBounds_check :
    checkEnds endsWithinBounds initTopicState 8 = true := by
  decide

/-- C3 counterexample: the run Medium-wrong, Easy-wrong (uncounted retry),
Easy-correct, Medium-correct, Hard-wrong, Medium-correct, Hard-correct is
reachable and serves 7 questions for one topic — more than the claimed
ceiling of 6 — because the first-sequence Easy retry is served without
incrementing `topic_question_count` and the critical Hard retry bypasses
the 5-count ceiling. -/
theorem C3_counterexample :
    runTopic initTopicState [false, false, true, true, false, true, true] =
      .ended .completedHard
        ⟨.hard, false, true, 2, 1, false, 6, false,
          [false, false, true, true, false, true, true]⟩ [] ∧
    6 < ([false, false, true, true, false, true, true] : List Bool).length := by
  decide

/-- C3 (amended): in every reachable adaptive session state a topic ends
after at most 7 served questions, and the enforced counter
`topic_question_count` stays at most 6: the ceiling check fires at 5
counted answers, the critical Hard retry can add a 6th counted answer, and
the first-sequence Easy retry adds one served-but-uncounted answer. -/
theorem C3_amended_topic_question_bounds
    (as : List Bool) (k : EndKind) (s' : TopicState)
    (hrun : runTopic initTopicState as = .ended k s' []) :
    s'.answers.length ≤ 7 ∧ s'.topicQuestionCount ≤ 6 := by
  have hP := checkEnds_sound endsWithinBounds 8 initTopicState
    endsWithinBounds_check as k s' hrun
  simpa [endsWithinBounds] using hP

/-- Witness for the amended C3 at the concrete run Medium-correct,
Hard-correct. -/
theorem C3_witness :
    ((⟨.hard, false, true, 0, 0, false, 2, false, [true, true]⟩ :
        TopicState)).answers.length ≤ 7 ∧
    ((⟨.hard, false, true, 0, 0, false, 2, false, [true, true]⟩ :
        TopicState)).topicQuestionCount ≤ 6 :=
  C3_amended_topic_question_bounds [true, true] .completedHard
    ⟨.hard, false, true, 0, 0, false, 2, false, [true, true]⟩ (by decide)

theorem endsWeakOnlyTripleFail_check :
    checkEnds endsWeakOnlyTripleFail initTopicState 8 = true := by
  decide

/-- C4: in the first-question sequence an incorrect first Easy answer is
followed by exactly one Easy retry (after Medium-wrong, Easy-wrong the
topic is still in progress at an Easy question), a second incorrect Easy
answer ends the topic via `mark_weak_and_continue` — that ending is
reachable only with the recorded answers Medium-wrong, Easy-wrong,
Easy-wrong — and the topic is then classified Weak by the ratio rule at
session completion. -/
theorem C4_first_sequence_double_easy_failure
    (as : List Bool) (s' : TopicState) (t : String)
    (log : List (String × Bool)) (needs : List String)
    (hrun : runTopic initTopicState as = .ended .markWeakAndContinue s' [])
    (hlog : topicAnswers t log = s'.answers)
    (hneeds : t ∉ needs) :
    runTopic initTopicState [false, false] =
      .inProgress ⟨.easy, true, true, 1, 0, false, 1, false, [false, false]⟩ ∧
    s'.answers = [false, false, false] ∧
    t ∈ (updateAdaptiveTestResults log needs).weakTopics := by
  have hP := checkEnds_sound endsWeakOnlyTripleFail 8 initTopicState
    endsWeakOnlyTripleFail_check as .markWeakAndContinue s' hrun
  have hans : s'.answers = [false, false, false] := by
    simpa [endsWeakOnlyTripleFail] using hP
  refine ⟨by decide, hans, ?_⟩
  have htot : totalCount t log = 3 := by rw [totalCount, hlog, hans]; rfl
  have hcor : correctCount t log = 0 := by rw [correctCount, hlog, hans]; rfl
  have hw : scoreBelowHalf t log = true := by simp [scoreBelowHalf, htot, hcor]
  have hne : topicAnswers t log ≠ [] := by rw [hlog, hans]; simp
  have hts := mem_distinctTopics.mpr (mem_map_fst_of_topicAnswers_ne_nil hne)
  exact List.mem_filter.mpr ⟨hts, by simp [hw, hneeds]⟩

/-- Witness for C4 at the concrete run Medium-wrong, Easy-wrong,
Easy-wrong. -/
theorem C4_witness :
    "Queues" ∈ (updateAdaptiveTestResults
      [("Queues", false), ("Queues", false), ("Queues", false)] []).weakTopics :=
  (C4_first_sequence_double_easy_failure [false, false, false]
    ⟨.easy, false, true, 2, 0, false, 1, false, [false, false, false]⟩
    "Queues" [("Queues", false), ("Queues", false), ("Queues", false)] []
    (by decide) (by decide) (by simp)).2.2

theorem pick_mem (l : List Question) (sel : Nat) (h : l ≠ []) :
    ∃ q, pick l sel = some q ∧ q ∈ l := by
  have hlen : 0 < l.length := List.length_pos.mpr h
  have hlt : sel % l.length < l.length := Nat.mod_lt _ hlen
  exact ⟨l.get ⟨sel % l.length, hlt⟩, List.get?_eq_get hlt, List.get_mem l _ hlt⟩

theorem pick_eq_none {l : List Question} {sel : Nat} (h : pick l sel = none) :
    l = [] := by
  by_contra hne
  obtain ⟨q, hq, _⟩ := pick_mem l sel hne
  rw [hq] at h
  exact Option.noConfusion h

theorem mem_exactMatches {q : Question} {topic std : String}
    {all : List Question} (h : q ∈ exactMatches topic std all) :
    q ∈ all ∧ q.topic = topic ∧ q.difficulty = std := by
  have h2 := List.mem_filter.mp h
  have h3 := h2.2
  simp only [Bool.and_eq_true, beq_iff_eq] at h3
  exact ⟨h2.1, h3.1, h3.2⟩

theorem candidateFinal_of_exact {topic std : String} {all : List Question}
    (h : exactMatches topic std all ≠ []) :
    candidateFinal topic std all = exactMatches topic std all := by
  have h1 : (exactMatches topic std all).isEmpty = false := by simpa using h
  simp [candidateFinal, candidateStage3, h1]

theorem candidateFinal_eq_nil {topic std : String} {all : List Question}
    (h : candidateFinal topic std all = []) :
    anyDifficultyMatches topic all = [] := by
  simp only [candidateFinal] at h
  by_cases h3 : (candidateStage3 topic std all).isEmpty = true
  · rw [if_pos h3] at h
    by_cases ha : (anyDifficultyMatches topic all).isEmpty = true
    · simpa using ha
    · rw [if_neg ha] at h
      by_cases hc : ((anyDifficultyMatches topic all).filter
          (fun q => q.difficulty == closestDifficulty std
            (anyDifficultyMatches topic all))).isEmpty = true
      · rw [if_pos hc] at h
        exact h
      · rw [if_neg hc] at h
        exact absurd (by simp [h]) hc
  · rw [if_neg h3] at h
    exact absurd (by simp [h]) h3

theorem getRandom_some_of_exact (topic d : String) (all : List Question)
    (sel : Nat) (h : exactMatches topic (stdDifficulty d) all ≠ []) :
    ∃ q, getRandomQuestionByTopicAndDifficulty topic d all sel = some q ∧
      q ∈ exactMatches topic (stdDifficulty d) all := by
  unfold getRandomQuestionByTopicAndDifficulty
  rw [candidateFinal_of_exact h]
  exact pick_mem _ sel h

theorem getRandom_none_no_topic_questions {topic d : String}
    {all : List Question} {sel : Nat}
    (h : getRandomQuestionByTopicAndDifficulty topic d all sel = none) :
    anyDifficultyMatches topic all = [] := by
  unfold getRandomQuestionByTopicAndDifficulty at h
  exact candidateFinal_eq_nil (pick_eq_none h)

/-- C5 (amended): whenever the dedup-tracked retrieval has any matching
candidate for the requested topic and difficulty, it selects some question,
appends its content hash to `used_question_hashes` before returning, and —
except in the documented all-candidates-used fallback — the selected hash
was not previously used.  (When there is no matching candidate at all, the
source instead delegates to the random retriever, which records nothing;
see the counterexample.) -/
theorem C5_amended_hash_recorded_on_selection
    (used : List QHash) (asked : List String) (topic difficulty : String)
    (all : List Question) (sel : Nat)
    (hm : matchingForRetrieval topic difficulty all ≠ []) :
    ∃ q : Question,
      (getUnusedQuestionByTopicAndDifficulty used asked topic difficulty all sel).question
        = some q ∧
      (getUnusedQuestionByTopicAndDifficulty used asked topic difficulty all sel).usedHashes
        = used ++ [getQuestionHash q] ∧
      ((getUnusedQuestionByTopicAndDifficulty used asked topic difficulty all sel).allUsedFallback
          = false →
        getQuestionHash q ∉ used) := by
  unfold getUnusedQuestionByTopicAndDifficulty
  by_cases hu : (unusedCandidates used asked topic difficulty all).isEmpty = true
  · rw [if_pos hu]
    rw [if_neg (by simpa using hm)]
    by_cases htu : (trulyUnusedCandidates used topic difficulty all).isEmpty = true
    · rw [if_pos htu]
      obtain ⟨q, hq, hqm⟩ := pick_mem _ sel hm
      rw [hq]
      exact ⟨q, rfl, rfl, by intro hfb; simp at hfb⟩
    · rw [if_neg htu]
      have htne : trulyUnusedCandidates used topic difficulty all ≠ [] := by
        simpa using htu
      obtain ⟨q, hq, hqm⟩ := pick_mem _ sel htne
      rw [hq]
      refine ⟨q, rfl, rfl, fun _ => ?_⟩
      have hpred := (List.mem_filter.mp hqm).2
      simpa using hpred
  · rw [if_neg hu]
    have hune : unusedCandidates used asked topic difficulty all ≠ [] := by
      simpa using hu
    obtain ⟨q, hq, hqm⟩ := pick_mem _ sel hune
    rw [hq]
    refine ⟨q, rfl, rfl, fun _ => ?_⟩
    have hpred := (List.mem_filter.mp hqm).2
    simp only [Bool.and_eq_true, Bool.not_eq_true', decide_eq_false_iff_not] at hpred
    exact hpred.1

/-- Witness for the amended C5: a fresh Medium question for topic Stacks is
selected and its hash is recorded. -/
theorem C5_witness :
    (getUnusedQuestionByTopicAndDifficulty [] [] ("Stacks") ("Medium")
        [sampleMediumQuestion] 0).question = some sampleMediumQuestion ∧
    (getUnusedQuestionByTopicAndDifficulty [] [] ("Stacks") ("Medium")
        [sampleMediumQuestion] 0).usedHashes = [getQuestionHash sampleMediumQuestion] :=
  have h := C5_amended_hash_recorded_on_selection [] [] ("Stacks") ("Medium")
    [sampleMediumQuestion] 0 (by decide)
  by
    obtain ⟨q, h1, h2, _⟩ := h
    have hq : q = sampleMediumQuestion := by
      have := h1
      rw [show (getUnusedQuestionByTopicAndDifficulty [] [] ("Stacks") ("Medium")
          [sampleMediumQuestion] 0).question = some sampleMediumQuestion from by decide] at this
      exact (Option.some.inj this).symm
    rw [hq] at h1 h2
    exact ⟨h1, by simpa using h2⟩

/-- C5 counterexample: with the topic's Easy bucket empty, the retrieval
delegates to the random retriever, which returns the already-served Medium
question: the same content hash is served twice in one session, the hash
set is returned unchanged, and the all-used fallback flag is not set —
contradicting both the hash-recorded-before-return guarantee and the
no-duplicates-outside-the-documented-fallback guarantee. -/
theorem C5_counterexample :
    getUnusedQuestionByTopicAndDifficulty [getQuestionHash sampleMediumQuestion]
        [] ("Stacks") ("Easy") [sampleMediumQuestion] 0 =
      ⟨some sampleMediumQuestion, [getQuestionHash sampleMediumQuestion], false⟩ ∧
    getQuestionHash sampleMediumQuestion ∈ [getQuestionHash sampleMediumQuestion] := by
  constructor
  · decide
  · simp

/-- C6 (amended): the Standard follow-up builder issues one retrieval per
difficulty in the fixed slot order Easy, Medium, Hard; when every
difficulty bucket of the topic is nonempty the built test is exactly one
Easy, one Medium and one Hard question of that topic, in that order; and
the builder fails only when the topic has no questions at all (even under
the loosest topic matching).  When a bucket is empty it is *not* skipped:
the retrieval fallback substitutes a question of another difficulty (see
the counterexample). -/
theorem C6_amended_standard_builder
    (topic : String) (all : List Question) (selE selM selH : Nat)
    (hE : exactMatches topic ("Easy") all ≠ [])
    (hM : exactMatches topic ("Medium") all ≠ [])
    (hH : exactMatches topic ("Hard") all ≠ []) :
    (∃ qe qm qh : Question,
      startReevaluationTest topic all selE selM selH = .built [qe, qm, qh] ∧
      qe.difficulty = "Easy" ∧ qm.difficulty = "Medium" ∧
      qh.difficulty = "Hard" ∧
      qe.topic = topic ∧ qm.topic = topic ∧ qh.topic = topic) ∧
    (∀ (topic2 : String) (all2 : List Question) (s1 s2 s3 : Nat),
      startReevaluationTest topic2 all2 s1 s2 s3 = .noQuestions →
      anyDifficultyMatches topic2 all2 = []) := by
  constructor
  · have hsE : stdDifficulty ("Easy") = "Easy" := by decide
    have hsM : stdDifficulty ("Medium") = "Medium" := by decide
    have hsH : stdDifficulty ("Hard") = "Hard" := by decide
    obtain ⟨qe, he, hem⟩ := getRandom_some_of_exact topic ("Easy") all selE
      (by rw [hsE]; exact hE)
    obtain ⟨qm, hm2, hmm⟩ := getRandom_some_of_exact topic ("Medium") all selM
      (by rw [hsM]; exact hM)
    obtain ⟨qh, hh2, hhm⟩ := getRandom_some_of_exact topic ("Hard") all selH
      (by rw [hsH]; exact hH)
    rw [hsE] at hem
    rw [hsM] at hmm
    rw [hsH] at hhm
    have hef := mem_exactMatches hem
    have hmf := mem_exactMatches hmm
    have hhf := mem_exactMatches hhm
    refine ⟨qe, qm, qh, ?_, hef.2.2, hmf.2.2, hhf.2.2, hef.2.1, hmf.2.1, hhf.2.1⟩
    unfold startReevaluationTest
    rw [he, hm2, hh2]
    rfl
  · intro topic2 all2 s1 s2 s3 hno
    cases hcaseE : getRandomQuestionByTopicAndDifficulty topic2 ("Easy") all2 s1 with
    | some q =>
      unfold startReevaluationTest at hno
      rw [hcaseE] at hno
      simp at hno
    | none => exact getRandom_none_no_topic_questions hcaseE

/-- Witness for the amended C6 at a bank holding one question per
difficulty for topic Stacks. -/
theorem C6_witness :
    exactMatches ("Stacks") ("Easy")
      [sampleEasyQuestion, sampleMediumQuestion, sampleHardQuestion] ≠ [] ∧
    (∃ qe qm qh : Question,
      startReevaluationTest ("Stacks")
        [sampleEasyQuestion, sampleMediumQuestion, sampleHardQuestion] 0 0 0 =
        .built [qe, qm, qh] ∧
      qe.difficulty = "Easy" ∧ qm.difficulty = "Medium" ∧
      qh.difficulty = "Hard" ∧
      qe.topic = "Stacks" ∧ qm.topic = "Stacks" ∧ qh.topic = "Stacks") :=
  ⟨by decide,
    (C6_amended_standard_builder ("Stacks")
      [sampleEasyQuestion, sampleMediumQuestion, sampleHardQuestion] 0 0 0
      (by decide) (by decide) (by decide)).1⟩

/-- C6 counterexample: for a topic whose bank holds a single Medium
question, the builder returns a three-element test consisting of that same
Medium question three times — the empty Easy and Hard buckets are not
skipped but filled by the closest-difficulty fallback, so the built test is
neither one-per-difficulty nor duplicate-free. -/
theorem C6_counterexample :
    startReevaluationTest ("Stacks") [sampleMediumQuestion] 0 0 0 =
      .built [sampleMediumQuestion, sampleMediumQuestion, sampleMediumQuestion] ∧
    sampleMediumQuestion.difficulty = "Medium" := by
  constructor
  · decide
  · rfl

theorem mem_foldl_addWeakTopic_of_mem {t : String} :
    ∀ (ts pool : List String), t ∈ pool → t ∈ ts.foldl addWeakTopic pool := by
  intro ts
  induction ts with
  | nil => intro pool h; exact h
  | cons a ts ih =>
    intro pool h
    rw [List.foldl_cons]
    apply ih
    unfold addWeakTopic
    split
    · exact h
    · exact List.mem_append_left _ h

theorem mem_foldl_addWeakTopic_of_mem_topics {t : String} :
    ∀ (ts pool : List String), t ∈ ts → t ∈ ts.foldl addWeakTopic pool := by
  intro ts
  induction ts with
  | nil => intro pool h; cases h
  | cons a ts ih =>
    intro pool h
    rw [List.foldl_cons]
    rcases List.mem_cons.mp h with rfl | hm
    · apply mem_foldl_addWeakTopic_of_mem
      unfold addWeakTopic
      split
      next hmem => exact hmem
      next => exact List.mem_append_right _ (by simp)
    · exact ih _ hm

/-- C7 counterexample: a perfect 3/3 Standard follow-up leaves the topic in
the weak pool (nothing is ever removed), and a perfect 3/3 Advanced
follow-up leaves the topic in the needs-training pool — contradicting the
claimed removals. -/
theorem C7_counterexample :
    completeStandardReevaluation ["Stacks"] 3 3 ["Stacks"] = ([], ["Stacks"]) ∧
    "Stacks" ∈ ["Stacks"] ∧
    completeAdvancedReevaluation ["Queues"] 3 3 [] ["Queues"] =
      ([], [], ["Queues"]) ∧
    "Queues" ∈ ["Queues"] := by
  exact ⟨by decide, by simp, by decide, by simp⟩

/-- C7 (amended): follow-up completion never removes a topic from any
pool.  Standard: a score of at least `total * 2 // 3` leaves the weak pool
unchanged (the topic is merely reported improved), a lower score re-adds
every session topic to the weak pool.  Advanced: the needs-training pool is
never modified; a score below 80 percent adds every session topic to the
*weak* pool, and otherwise the pools are unchanged. -/
theorem C7_amended_no_pool_removal
    (topics : List String) (c n : Nat) (weakPool needsPool : List String)
    (t : String) :
    (t ∈ weakPool → t ∈ (completeStandardReevaluation topics c n weakPool).2) ∧
    (n * 2 / 3 ≤ c →
      completeStandardReevaluation topics c n weakPool = ([], weakPool)) ∧
    (c < n * 2 / 3 → ∀ t2 ∈ topics,
      t2 ∈ (completeStandardReevaluation topics c n weakPool).2) ∧
    ((completeAdvancedReevaluation topics c n weakPool needsPool).2.2 =
      needsPool) ∧
    (4 * n ≤ 5 * c →
      completeAdvancedReevaluation topics c n weakPool needsPool =
        ([], weakPool, needsPool)) ∧
    (5 * c < 4 * n → ∀ t2 ∈ topics,
      t2 ∈ (completeAdvancedReevaluation topics c n weakPool needsPool).2.1) := by
  refine ⟨?_, ?_, ?_, ?_, ?_, ?_⟩
  · intro h
    unfold completeStandardReevaluation
    split
    · exact mem_foldl_addWeakTopic_of_mem _ _ h
    · exact h
  · intro h
    unfold completeStandardReevaluation
    rw [if_neg (by omega)]
    rfl
  · intro h t2 ht2
    unfold completeStandardReevaluation
    rw [if_pos h]
    exact mem_foldl_addWeakTopic_of_mem_topics _ _ ht2
  · unfold completeAdvancedReevaluation
    split <;> rfl
  · intro h
    unfold completeAdvancedReevaluation
    rw [if_neg (by omega)]
    rfl
  · intro h t2 ht2
    unfold completeAdvancedReevaluation
    rw [if_pos h]
    exact mem_foldl_addWeakTopic_of_mem_topics _ _ ht2

/-- Witness for the amended C7: a failed 1/3 Standard follow-up re-adds the
topic to the weak pool, and a passed 3/3 one leaves the pool unchanged. -/
theorem C7_witness :
    ((1 : Nat) < 3 * 2 / 3 ∧
      "Stacks" ∈ (completeStandardReevaluation ["Stacks"] 1 3 []).2) ∧
    ((3 : Nat) * 2 / 3 ≤ 3 ∧
      completeStandardReevaluation ["Stacks"] 3 3 ["Stacks"] =
        ([], ["Stacks"])) :=
  ⟨⟨by decide,
    (C7_amended_no_pool_removal ["Stacks"] 1 3 [] [] ("Stacks")).2.2.1
      (by decide) ("Stacks") (by simp)⟩,
   ⟨by decide,
    (C7_amended_no_pool_removal ["Stacks"] 3 3 ["Stacks"] [] ("Stacks")).2.1
      (by decide)⟩⟩

theorem mem_variationMatches {q : Question} {topic std : String}
    {all : List Question} (h : q ∈ variationMatches topic std all) :
    q ∈ all ∧ q.difficulty = std := by
  unfold variationMatches at h
  rcases List.mem_flatMap.mp h with ⟨mv, _, hmv⟩
  rcases List.mem_flatMap.mp hmv with ⟨v, _, hv⟩
  have h2 := mem_exactMatches hv
  exact ⟨h2.1, h2.2.2⟩

theorem mem_advancedHardPool {q : Question} {topic : String}
    {all : List Question} (h : q ∈ advancedHardPool topic all) :
    q.difficulty = "Hard" := by
  simp only [advancedHardPool] at h
  split at h
  · exact (mem_variationMatches h).2
  · exact (mem_exactMatches h).2.2

theorem dedupByKeyAux_props :
    ∀ (l : List Question) (seen : List String),
      (dedupByKeyAux seen l).Pairwise
        (fun a b => questionKey a ≠ questionKey b) ∧
      (∀ q ∈ dedupByKeyAux seen l, questionKey q ∉ seen) ∧
      (∀ q ∈ dedupByKeyAux seen l, q ∈ l) := by
  intro l
  induction l with
  | nil => intro seen; simp [dedupByKeyAux]
  | cons a l ih =>
    intro seen
    unfold dedupByKeyAux
    by_cases h : questionKey a ∈ seen
    · rw [if_pos (by simpa using h)]
      obtain ⟨p1, p2, p3⟩ := ih seen
      exact ⟨p1, p2, fun q hq => List.mem_cons_of_mem _ (p3 q hq)⟩
    · rw [if_neg (by simpa using h)]
      obtain ⟨p1, p2, p3⟩ := ih (seen ++ [questionKey a])
      refine ⟨?_, ?_, ?_⟩
      · refine List.pairwise_cons.mpr ⟨?_, p1⟩
        intro b hb hEq
        apply p2 b hb
        rw [← hEq]
        exact List.mem_append_right _ (by simp)
      · intro q hq
        rcases List.mem_cons.mp hq with rfl | hm
        · exact h
        · intro hseen
          exact p2 q hm (List.mem_append_left _ hseen)
      · intro q hq
        rcases List.mem_cons.mp hq with rfl | hm
        · exact List.mem_cons_self _ _
        · exact List.mem_cons_of_mem _ (p3 q hm)

/-- C8 counterexample: with exactly one eligible Hard question (so not
zero), the Advanced builder fails (`found 1` — the source requires at least
2), and with exactly two eligible Hard questions it builds a 2-question
session instead of the claimed exactly 3. -/
theorem C8_counterexample :
    startAdvancedReevaluationTest ("Graphs") [sampleGraphHard 0] =
      .notEnough 1 ∧
    startAdvancedReevaluationTest ("Graphs")
        [sampleGraphHard 0, sampleGraphHard 1] =
      .built [sampleGraphHard 0, sampleGraphHard 1] := by
  exact ⟨by decide, by decide⟩

/-- C8 (amended): the Advanced builder fails exactly when fewer than 2
mutually-deduplicated Hard questions are eligible for the topic (after
alias expansion); otherwise it builds `min unique 3` questions, all of
difficulty Hard and pairwise distinct under the 100-character dedup key. -/
theorem C8_amended_advanced_builder
    (topic : String) (all : List Question) :
    ((dedupByKey (advancedHardPool topic all)).length < 2 →
      startAdvancedReevaluationTest topic all =
        .notEnough (dedupByKey (advancedHardPool topic all)).length) ∧
    (2 ≤ (dedupByKey (advancedHardPool topic all)).length →
      ∃ qs : List Question,
        startAdvancedReevaluationTest topic all = .built qs ∧
        qs.length = min (dedupByKey (advancedHardPool topic all)).length 3 ∧
        qs.Pairwise (fun a b => questionKey a ≠ questionKey b) ∧
        ∀ q ∈ qs, q.difficulty = "Hard") := by
  obtain ⟨p1, _, p3⟩ := dedupByKeyAux_props (advancedHardPool topic all) []
  constructor
  · intro h
    unfold startAdvancedReevaluationTest
    rw [if_pos h]
  · intro h
    unfold startAdvancedReevaluationTest
    rw [if_neg (by omega)]
    refine ⟨_, rfl, ?_, ?_, ?_⟩
    · split
      next h3 => simp [List.length_take]; omega
      next h3 => simp; omega
    · split
      · exact p1.sublist (List.take_sublist _ _)
      · exact p1
    · intro q hq
      have hq2 : q ∈ dedupByKey (advancedHardPool topic all) := by
        revert hq
        split
        · intro hq
          exact (List.take_sublist _ _).subset hq
        · intro hq
          exact hq
      exact mem_advancedHardPool (p3 q hq2)

/-- Witness for the amended C8 at a bank with three distinct Hard
questions on one topic. -/
theorem C8_witness :
    2 ≤ (dedupByKey (advancedHardPool ("Graphs")
        [sampleGraphHard 0, sampleGraphHard 1, sampleGraphHard 2])).length ∧
    (∃ qs : List Question,
      startAdvancedReevaluationTest ("Graphs")
          [sampleGraphHard 0, sampleGraphHard 1, sampleGraphHard 2] =
        .built qs ∧
      qs.length = min (dedupByKey (advancedHardPool ("Graphs")
        [sampleGraphHard 0, sampleGraphHard 1, sampleGraphHard 2])).length 3 ∧
      qs.Pairwise (fun a b => questionKey a ≠ questionKey b) ∧
      ∀ q ∈ qs, q.difficulty = "Hard") :=
  ⟨by decide,
    (C8_amended_advanced_builder ("Graphs")
      [sampleGraphHard 0, sampleGraphHard 1, sampleGraphHard 2]).2 (by decide)⟩

/-- C9 counterexample: the letter Z is not among the question's choice
letters, yet both the fixed-exam processor and the adaptive correctness
test score it as an ordinary incorrect answer — no typed
`InvalidAnswerFormat` result exists anywhere in either path. -/
theorem C9_counterexample :
    (sampleChoiceQuestion.choices.map (fun c => c.1)).contains ("Z") = false ∧
    trackerProcessAnswer [sampleChoiceQuestion] 0 ("Z") =
      .ok ⟨false, "A", "LIFO structure", true⟩ ∧
    checkAnswerAdaptive ("Z") ("A") = false := by
  exact ⟨by decide, by decide, by decide⟩

/-- C9 (amended): for any in-range question index, answer processing never
returns an error for any answer string — an answer whose letter is not a
valid choice letter is treated as an ordinary incorrect answer, scored by
plain uppercase comparison. -/
theorem C9_amended_invalid_letter_ordinary
    (questions : List Question) (idx : Nat) (answer : String)
    (h : idx < questions.length) :
    ∃ r : TrackerAnswerOutcome,
      trackerProcessAnswer questions idx answer = .ok r ∧
      r.correct = (strUpper answer == (questions.get ⟨idx, h⟩).correctAnswer) := by
  unfold trackerProcessAnswer
  rw [List.get?_eq_get h]
  exact ⟨_, rfl, rfl⟩

/-- Witness for the amended C9 at the four-choice sample question and the
invalid letter Z. -/
theorem C9_witness :
    0 < ([sampleChoiceQuestion] : List Question).length ∧
    (∃ r : TrackerAnswerOutcome,
      trackerProcessAnswer [sampleChoiceQuestion] 0 ("Z") = .ok r ∧
      r.correct = (strUpper ("Z") ==
        (([sampleChoiceQuestion] : List Question).get ⟨0, by decide⟩).correctAnswer)) :=
  ⟨by decide,
    C9_amended_invalid_letter_ordinary [sampleChoiceQuestion] 0 ("Z") (by decide)⟩

/-- C10: a Standard follow-up that degraded to a single question can never
mark its topic weak: the weak-mark threshold `1 * 2 // 3` is `0`, no
`correct < 0` is possible, so the completed test's weak list is empty and
the weak pool is returned unchanged, whatever the answer was. -/
theorem C10_single_question_never_weak
    (topics : List String) (c : Nat) (pool : List String) :
    completeStandardReevaluation topics c 1 pool = ([], pool) := by
  unfold completeStandardReevaluation
  rw [if_neg (by omega)]
  rfl

end JustLearn
